import Mathlib

/-!
Verification development for the email-parsing workers of this repository
(the multi-institution Cloudflare worker and the legacy single-institution
worker).  JavaScript strings are modelled as Lean strings (lists of
characters); JavaScript numbers reaching the amount pipeline are modelled as
rationals; the two outbound calls to the probabilistic classifier are
modelled as explicit reply values (an external reply, or a thrown error).
-/

/- ============================================================
   Models of the JavaScript string primitives used by the source
   ============================================================ -/

/-- Model of the whitespace class used by `String.prototype.trim` and the
regex class backslash-s, restricted to the ASCII whitespace characters that
occur in this program's data. -/
def isWsChar (c : Char) : Bool :=
  c == ' ' || c == '\t' || c == '\n' || c == '\r' || c == '\x0b' || c == '\x0c'

/-- Model of `String.prototype.toLowerCase` on one character: ASCII letters
and the Latin-1 letter block (which covers every accented character appearing
in the source's keyword lists) are lowered; other characters are unchanged. -/
def lowerChar (c : Char) : Char :=
  if 65 ≤ c.toNat ∧ c.toNat ≤ 90 then Char.ofNat (c.toNat + 32)
  else if 192 ≤ c.toNat ∧ c.toNat ≤ 222 ∧ c.toNat ≠ 215 then Char.ofNat (c.toNat + 32)
  else c

/-- Model of `String.prototype.toLowerCase`. -/
def jsToLower (s : String) : String := String.mk (s.toList.map lowerChar)

/-- Whitespace trimming on character lists (both ends). -/
def trimList (l : List Char) : List Char :=
  ((l.dropWhile isWsChar).reverse.dropWhile isWsChar).reverse

/-- Model of `String.prototype.trim`. -/
def jsTrim (s : String) : String := String.mk (trimList s.toList)

/-- Contiguous-sublist test on character lists (needle first). -/
def listContains (n : List Char) : List Char → Bool
  | [] => n.isEmpty
  | c :: t => n.isPrefixOf (c :: t) || listContains n t

/-- Model of `String.prototype.includes`. -/
def strContains (s sub : String) : Bool := listContains sub.toList s.toList

/-- Model of `String.prototype.startsWith`. -/
def jsStartsWith (s p : String) : Bool := p.toList.isPrefixOf s.toList

/-- Model of `String.prototype.endsWith`. -/
def jsEndsWith (s p : String) : Bool := p.toList.reverse.isPrefixOf s.toList.reverse

/-- Model of `String.prototype.substring(0, n)`. -/
def substrN (n : Nat) (s : String) : String := String.mk (s.toList.take n)

/-- Numeric value of a decimal digit character. -/
def digitVal (c : Char) : Nat := c.toNat - 48

/-- Value of a decimal digit string. -/
def natOfDigits (l : List Char) : Nat := l.foldl (fun a c => 10 * a + digitVal c) 0

/-- Model of `parseFloat` for the strings this program can produce (optional
whitespace and sign, integer digits, optional fractional digits; an exponent
part never occurs here because the input alphabet is digits, dot and comma).
`none` models `NaN`. -/
def parseFloatQ (l : List Char) : Option ℚ :=
  let l1 := l.dropWhile isWsChar
  let sgn : ℚ := if l1.head? = some '-' then -1 else 1
  let l2 := if l1.head? = some '-' ∨ l1.head? = some '+' then l1.tail else l1
  let ip := l2.takeWhile Char.isDigit
  let rest := l2.drop ip.length
  let frac := if rest.head? = some '.' then rest.tail.takeWhile Char.isDigit else []
  if ip.isEmpty && frac.isEmpty then none
  else some (sgn * ((natOfDigits ip : ℚ) + (natOfDigits frac : ℚ) / ((10 : ℚ) ^ frac.length)))

/- ============================================================
   Amount extraction (`parseArgentineAmount`, `extractAmount`);
   these two functions are character-identical in both workers.
   ============================================================ -/

/-- Test of the regex comma-two-digits-at-end check used by
`parseArgentineAmount`. -/
def endsCommaDD (l : List Char) : Bool :=
  match l.reverse with
  | d2 :: d1 :: c :: _ => c == ',' && d1.isDigit && d2.isDigit
  | _ => false

/-- Model of `String.prototype.replace(c, d)` with a plain (non-global)
character pattern: replaces the first occurrence only. -/
def replaceFirst (l : List Char) (a b : Char) : List Char :=
  match l with
  | [] => []
  | c :: t => if c == a then b :: t else c :: replaceFirst t a b

/-- `parseArgentineAmount` from the source: trim; if the string ends in a
comma followed by two digits, remove every dot and turn the comma into a
decimal point; otherwise remove every dot; then `parseFloat`, with `NaN`
mapped to 0. -/
def parseArgentineAmount (str : String) : ℚ :=
  let cleaned := (jsTrim str).toList
  let normalized :=
    if endsCommaDD cleaned then
      replaceFirst (cleaned.filter (fun c => c != '.')) ',' '.'
    else
      cleaned.filter (fun c => c != '.')
  match parseFloatQ normalized with
  | none => 0
  | some a => a

/-- Character class of the numeric-token regex `[\d.]`. -/
def isDigitDot (c : Char) : Bool := c.isDigit || c == '.'

/-- Capture of the numeric sub-pattern: a greedy nonempty run of digits and
dots, optionally followed by a comma and two digits. -/
def numTokenAt (l : List Char) : Option (List Char) :=
  let run := l.takeWhile isDigitDot
  if run.isEmpty then none
  else
    match l.drop run.length with
    | ',' :: d1 :: d2 :: _ =>
      if d1.isDigit && d2.isDigit then some (run ++ [',', d1, d2]) else some run
    | _ => some run

/-- Match attempt, at the head of the list, of the first amount regex: a
dollar sign, optional whitespace, then the numeric token.  Returns the
capture and the total number of characters consumed by the match. -/
def dollarMatchAt (l : List Char) : Option (List Char × Nat) :=
  match l with
  | '$' :: r =>
    let nws := (r.takeWhile isWsChar).length
    match numTokenAt (r.drop nws) with
    | some cap => some (cap, 1 + nws + cap.length)
    | none => none
  | _ => none

/-- Match attempt, at the head of the list, of the second amount regex:
case-insensitive `ARS`, optional whitespace, then the numeric token. -/
def arsMatchAt (l : List Char) : Option (List Char × Nat) :=
  match l with
  | c1 :: c2 :: c3 :: r =>
    if lowerChar c1 == 'a' && lowerChar c2 == 'r' && lowerChar c3 == 's' then
      let nws := (r.takeWhile isWsChar).length
      match numTokenAt (r.drop nws) with
      | some cap => some (cap, 3 + nws + cap.length)
      | none => none
    else none
  | _ => none

/-- Global-regex scan: the matcher is tried at each position; on a match the
scan resumes after the matched span, exactly as repeated `exec` calls do.
The fuel argument equals the input length; every step consumes at least one
character, so the fuel never runs out. -/
def scanAux (f : List Char → Option (List Char × Nat)) : Nat → List Char → List (List Char)
  | 0, _ => []
  | _ + 1, [] => []
  | fuel + 1, c :: t =>
    match f (c :: t) with
    | none => scanAux f fuel t
    | some (cap, n) => cap :: scanAux f fuel (if n == 0 then t else (c :: t).drop n)

/-- All captures produced by a global regex over the input. -/
def scanMatches (f : List Char → Option (List Char × Nat)) (l : List Char) : List (List Char) :=
  scanAux f l.length l

/-- The candidate numeric strings of `extractAmount`, in the order the
source visits them: all matches of the dollar pattern, then all matches of
the ARS pattern. -/
def amountCandidates (text : String) : List (List Char) :=
  scanMatches dollarMatchAt text.toList ++ scanMatches arsMatchAt text.toList

/-- `extractAmount` from the source: running maximum, starting at 0, of the
parsed value of every candidate, updated whenever a candidate parses to a
strictly larger value. -/
def extractAmount (text : String) : ℚ :=
  (amountCandidates text).foldl
    (fun maxAmount m =>
      let amount := parseArgentineAmount (String.mk m)
      if amount > maxAmount then amount else maxAmount) 0

/- ============================================================
   Reply values of the external probabilistic classifier
   ============================================================ -/

/-- Outcome of one call to the external classifier: `err` models a thrown
error or timeout; `ok r` models a resolved call whose `response` field is
`r` (with `none` for a missing field). -/
inductive AiReply
  | err
  | ok (resp : Option String)
deriving DecidableEq, Repr

/- ============================================================
   Multi-institution worker (the file defining
   FINANCIAL_INSTITUTIONS, identifyInstitution, classifyEmailIntent,
   detectTransactionTypeWithAI, categorizeWithAI, parseTransaction
   and the email handler)
   ============================================================ -/

/-- One registry entry of `FINANCIAL_INSTITUTIONS`. -/
structure Institution where
  id : String
  name : String
  ty : String
  transactionalDomains : List String
  marketingDomains : List String
deriving DecidableEq, Repr

/-- The sender-match result returned by `identifyInstitution`. -/
structure InstMatch where
  id : String
  name : String
  ty : String
  isMarketing : Bool
deriving DecidableEq, Repr

/-- The intent-classification result of `classifyEmailIntent`.  The string
fields hold the source's literals (type is the literal `transaction` or
`promotional`; confidence is `keyword`, `domain`, `ai` or `fallback`). -/
structure IntentResult where
  type : String
  confidence : String
  reason : String
deriving DecidableEq, Repr

/-- The record built by `parseTransaction`. -/
structure TxResult where
  type : String
  amount : ℚ
  currency : String
  counterparty : Option String
  description : Option String
  referenceId : Option String
deriving DecidableEq, Repr

namespace Multi

/-- The static registry `FINANCIAL_INSTITUTIONS`, in declaration order. -/
def FINANCIAL_INSTITUTIONS : List Institution := [
  ⟨"mercadopago", "Mercado Pago", "fintech",
    ["info@mercadopago.com", "info@mercadopago.com.ar"],
    ["marketing@mercadopago.com", "marketing@mercadopago.com.ar", "promociones@mercadopago.com"]⟩,
  ⟨"uala", "Ualá", "fintech",
    ["@uala.com.ar", "@notificaciones.uala.com.ar"],
    ["@marketing.uala.com.ar", "@promo.uala.com.ar"]⟩,
  ⟨"brubank", "Brubank", "fintech",
    ["@brubank.com.ar", "@notificaciones.brubank.com.ar"],
    ["@marketing.brubank.com.ar"]⟩,
  ⟨"naranjax", "Naranja X", "fintech",
    ["@naranjax.com", "@notificaciones.naranjax.com"],
    ["@marketing.naranjax.com"]⟩,
  ⟨"personalpay", "Personal Pay", "fintech",
    ["@personalpay.com.ar"],
    ["@marketing.personalpay.com.ar"]⟩,
  ⟨"galicia", "Banco Galicia", "bank",
    ["@bancogalicia.com.ar", "@e.bancogalicia.com.ar", "@notificaciones.bancogalicia.com.ar"],
    ["@marketing.bancogalicia.com.ar", "@ofertas.bancogalicia.com.ar"]⟩,
  ⟨"santander", "Banco Santander", "bank",
    ["@santander.com.ar", "@email.santander.com.ar", "@notificaciones.santander.com.ar"],
    ["@marketing.santander.com.ar", "@ofertas.santander.com.ar"]⟩,
  ⟨"bbva", "BBVA", "bank",
    ["@bbva.com.ar", "@notificaciones.bbva.com.ar"],
    ["@marketing.bbva.com.ar"]⟩,
  ⟨"nacion", "Banco Nación", "bank",
    ["@bna.com.ar", "@notificaciones.bna.com.ar"],
    ["@marketing.bna.com.ar"]⟩,
  ⟨"macro", "Banco Macro", "bank",
    ["@macro.com.ar", "@notificaciones.macro.com.ar"],
    ["@marketing.macro.com.ar"]⟩,
  ⟨"hsbc", "HSBC Argentina", "bank",
    ["@hsbc.com.ar", "@notificaciones.hsbc.com.ar"],
    ["@marketing.hsbc.com.ar"]⟩,
  ⟨"icbc", "ICBC Argentina", "bank",
    ["@icbc.com.ar", "@notificaciones.icbc.com.ar"],
    ["@marketing.icbc.com.ar"]⟩]

/-- The fixed promotional keyword list. -/
def PROMOTIONAL_KEYWORDS : List String := [
  "cashback disponible", "ganaste", "beneficio exclusivo", "descuento",
  "oferta especial", "promo", "cupón", "premio", "sorteo", "regalo",
  "aprovechá", "no te pierdas", "por tiempo limitado", "solo hoy",
  "última oportunidad", "exclusivo para vos", "bonus", "puntos extra",
  "recompensa", "acumulá", "canjeá", "duplicá", "triplicá"]

/-- The transaction keyword list local to `classifyEmailIntent`. -/
def transactionKeywords : List String := [
  "transferiste", "recibiste", "pagaste", "te transfirieron",
  "te pagaron", "retiro", "depósito", "compra", "cobro",
  "movimiento", "operación exitosa", "comprobante"]

end Multi

/-- `extractEmailAddress`: lower-case and trim the from string, then take the
first capture of the angle-bracket regex (the characters between the first
viable opening angle bracket and the next closing one), trimmed, falling
back to the whole lowered string when no bracketed address exists. -/
def firstAngleCapture : List Char → Option (List Char)
  | [] => none
  | '<' :: t =>
    let run := t.takeWhile (fun c => c != '>')
    if 0 < run.length && run.length < t.length then some run
    else firstAngleCapture t
  | _ :: t => firstAngleCapture t

/-- `extractEmailAddress` from the multi-institution worker. -/
def extractEmailAddress (frm : String) : String :=
  if frm = "" then ""
  else
    let lowerFrom := jsTrim (jsToLower frm)
    match firstAngleCapture lowerFrom.toList with
    | some cap => String.mk (trimList cap)
    | none => lowerFrom

/-- One sender entry check of `identifyInstitution`: a leading-`@` entry is a
domain suffix compared with `endsWith`; any other entry is compared for
whole-address equality. -/
def domainMatches (email domain : String) : Bool :=
  if jsStartsWith domain "@" then jsEndsWith email domain else email == domain

namespace Multi

/-- The registry search of `identifyInstitution`: institutions in
declaration order; within one institution the transactional list is checked
before the marketing list; the first matching entry wins. -/
def findInst : List Institution → String → Option InstMatch
  | [], _ => none
  | inst :: rest, email =>
    match inst.transactionalDomains.find? (fun d => domainMatches email d) with
    | some _ => some ⟨inst.id, inst.name, inst.ty, false⟩
    | none =>
      match inst.marketingDomains.find? (fun d => domainMatches email d) with
      | some _ => some ⟨inst.id, inst.name, inst.ty, true⟩
      | none => findInst rest email

/-- `identifyInstitution` from the multi-institution worker. -/
def identifyInstitution (frm : String) : Option InstMatch :=
  let email := extractEmailAddress frm
  if email = "" then none
  else findInst FINANCIAL_INSTITUTIONS email

/-- The legacy wrapper `isFromMercadoPago` of the multi-institution worker:
true exactly when some institution matches. -/
def isFromMercadoPago (frm : String) : Bool :=
  identifyInstitution frm != none

/-- Lower-cased, trimmed classifier answer used by `classifyEmailIntent`
(`result.response?.toLowerCase().trim()` with a missing field giving the
empty string). -/
def aiRespText (resp : Option String) : String :=
  match resp with
  | none => ""
  | some s => jsTrim (jsToLower s)

/-- `classifyEmailIntent` from the source: promotional keywords first, then
the marketing-domain check, then transaction keywords, then the external
classifier (answer containing the token `transaction` means a transaction),
and the fallback result when the external call throws. -/
def classifyEmailIntent (institution : InstMatch) (subject bodyPreview : String)
    (reply : AiReply) : IntentResult :=
  let subjectLower := jsToLower subject
  let bodyLower := jsToLower bodyPreview
  let fullText := subjectLower ++ " " ++ bodyLower
  match PROMOTIONAL_KEYWORDS.find? (fun kw => strContains fullText kw) with
  | some kw => ⟨"promotional", "keyword", kw⟩
  | none =>
    if institution.isMarketing then ⟨"promotional", "domain", "marketing domain"⟩
    else
      match transactionKeywords.find? (fun kw => strContains fullText kw) with
      | some kw => ⟨"transaction", "keyword", kw⟩
      | none =>
        match reply with
        | .ok resp =>
          let response := aiRespText resp
          let isTransaction := strContains response "transaction"
          ⟨if isTransaction then "transaction" else "promotional", "ai", "AI: " ++ response⟩
        | .err => ⟨"transaction", "fallback", "AI error"⟩

end Multi

/-- The closed transaction-type enumeration `VALID_TRANSACTION_TYPES`. -/
def VALID_TRANSACTION_TYPES : List String := [
  "transfer_received", "transfer_sent", "payment_received", "payment_sent",
  "withdrawal", "deposit", "refund_received", "refund_sent"]

/-- The nine-entry category enumeration `VALID_CATEGORIES` (identical in
both workers and in the schema migration). -/
def VALID_CATEGORIES : List String := [
  "utilities-bills", "food-dining", "transportation", "shopping-clothing",
  "health-wellness", "recreation-entertainment", "financial-obligations",
  "savings-investments", "miscellaneous-other"]

/-- Character class of the sanitizer regex removing every character other
than a lower-case letter or underscore. -/
def isAzUnderscore (c : Char) : Bool :=
  if 97 ≤ c.toNat ∧ c.toNat ≤ 122 then true else c == '_'

/-- Character class of the sanitizer regex removing every character other
than a lower-case letter or hyphen. -/
def isAzHyphen (c : Char) : Bool :=
  if 97 ≤ c.toNat ∧ c.toNat ≤ 122 then true else c == '-'

/-- The answer sanitizer of `detectTransactionTypeWithAI`: trim, lower-case,
and delete every character other than a lower-case letter or underscore. -/
def sanitizeType (s : String) : String :=
  String.mk ((jsToLower (jsTrim s)).toList.filter isAzUnderscore)

/-- The answer sanitizer of `categorizeWithAI`: trim, lower-case, and delete
every character other than a lower-case letter or hyphen. -/
def sanitizeCategory (s : String) : String :=
  String.mk ((jsToLower (jsTrim s)).toList.filter isAzHyphen)

namespace Multi

/-- `detectTransactionTypeWithAI`: a thrown call or a missing response field
gives `none`; otherwise the sanitized answer is accepted only when it lies
in the closed enumeration, and `none` (fall back to keywords) otherwise.
The subject and body-preview arguments only feed the prompt, which is not
modelled. -/
def detectTransactionTypeWithAI (reply : AiReply) (subject bodyPreview : String) :
    Option String :=
  match reply with
  | .err => none
  | .ok none => none
  | .ok (some s) =>
    let ty := sanitizeType s
    if ty ∈ VALID_TRANSACTION_TYPES then some ty else none

/-- `categorizeWithAI` of the multi-institution worker.  The three text
fields are `Option String` (absent model of null); a present-but-empty field
is falsy under the source's `filter(Boolean)` and is dropped too.  The
transaction-type argument only affects the prompt. -/
def categorizeWithAI (counterparty description subject : Option String)
    (transactionType : String) (reply : AiReply) : String :=
  let parts := ([counterparty, description, subject].filterMap id).filter (fun s => s ≠ "")
  let context := jsTrim (String.intercalate " " parts)
  if context = "" then "miscellaneous-other"
  else
    match reply with
    | .err => "miscellaneous-other"
    | .ok resp =>
      let category := sanitizeCategory (resp.getD "")
      if category ∈ VALID_CATEGORIES then category else "miscellaneous-other"

/-- The deterministic keyword chain of `parseTransaction` (its fallback when
the external type classifier fails), over the lower-cased subject and body:
the four money-in groups in order, then the four money-out groups in order,
first applicable group wins, default `unknown`. -/
def keywordFallbackType (subjectLower bodyLower : String) : String :=
  if strContains subjectLower "recibiste" || strContains subjectLower "te transfirieron" ||
     strContains subjectLower "te enviaron" || strContains subjectLower "transferencia recibida" then
    "transfer_received"
  else if strContains subjectLower "te pagaron" || strContains subjectLower "recibiste un pago" ||
     strContains subjectLower "te depositaron" || strContains subjectLower "pago recibido" then
    "payment_received"
  else if strContains subjectLower "te devolvieron" || strContains subjectLower "reembolso" ||
     strContains bodyLower "devolución a tu favor" then
    "refund_received"
  else if strContains subjectLower "ingreso" || strContains subjectLower "cargaste" ||
     strContains subjectLower "acreditamos" || strContains subjectLower "cashback" ||
     strContains subjectLower "bonificación" || strContains subjectLower "ganaste" then
    "deposit"
  else if strContains subjectLower "transferiste" || strContains subjectLower "enviaste" ||
     strContains subjectLower "transferencia enviada" || strContains subjectLower "fue enviada" then
    "transfer_sent"
  else if strContains subjectLower "pagaste" || strContains subjectLower "compraste" ||
     strContains subjectLower "qr" || strContains subjectLower "suscripción" ||
     strContains subjectLower "cobro automático" || strContains subjectLower "cuota" ||
     strContains subjectLower "débito" || strContains subjectLower "pago enviado" then
    "payment_sent"
  else if strContains subjectLower "devolviste" || strContains subjectLower "reembolsaste" then
    "refund_sent"
  else if strContains subjectLower "retiro" || strContains bodyLower "retiro" ||
     strContains subjectLower "extracción" then
    "withdrawal"
  else "unknown"

/-- Disjunction of the four money-in keyword groups of the chain. -/
def moneyInHit (subjectLower bodyLower : String) : Bool :=
  (strContains subjectLower "recibiste" || strContains subjectLower "te transfirieron" ||
   strContains subjectLower "te enviaron" || strContains subjectLower "transferencia recibida") ||
  (strContains subjectLower "te pagaron" || strContains subjectLower "recibiste un pago" ||
   strContains subjectLower "te depositaron" || strContains subjectLower "pago recibido") ||
  (strContains subjectLower "te devolvieron" || strContains subjectLower "reembolso" ||
   strContains bodyLower "devolución a tu favor") ||
  (strContains subjectLower "ingreso" || strContains subjectLower "cargaste" ||
   strContains subjectLower "acreditamos" || strContains subjectLower "cashback" ||
   strContains subjectLower "bonificación" || strContains subjectLower "ganaste")

/-- Disjunction of the four money-out keyword groups of the chain. -/
def moneyOutHit (subjectLower bodyLower : String) : Bool :=
  (strContains subjectLower "transferiste" || strContains subjectLower "enviaste" ||
   strContains subjectLower "transferencia enviada" || strContains subjectLower "fue enviada") ||
  (strContains subjectLower "pagaste" || strContains subjectLower "compraste" ||
   strContains subjectLower "qr" || strContains subjectLower "suscripción" ||
   strContains subjectLower "cobro automático" || strContains subjectLower "cuota" ||
   strContains subjectLower "débito" || strContains subjectLower "pago enviado") ||
  (strContains subjectLower "devolviste" || strContains subjectLower "reembolsaste") ||
  (strContains subjectLower "retiro" || strContains bodyLower "retiro" ||
   strContains subjectLower "extracción")

end Multi

/-- The counterparty loop of `parseTransaction`: patterns in declaration
order; the first pattern that matches and whose capture, trimmed, has length
strictly greater than 1 supplies the (trimmed) counterparty; otherwise the
field stays absent.  The six regex patterns themselves are modelled as
capture functions (first-capture on a given text, or none). -/
def selectCounterparty (patterns : List (String → Option String)) (fullText : String) :
    Option String :=
  match patterns with
  | [] => none
  | p :: ps =>
    match p fullText with
    | some cap =>
      if 1 < (jsTrim cap).length then some (jsTrim cap)
      else selectCounterparty ps fullText
    | none => selectCounterparty ps fullText

/-- Separator class `[:\s#]` of the reference-id regex. -/
def isRefSep (c : Char) : Bool := c == ':' || c == '#' || isWsChar c

/-- Case-insensitive literal match at the head of the text: returns the rest
of the text on success. -/
def ciPrefix : List Char → List Char → Option (List Char)
  | [], l => some l
  | _ :: _, [] => none
  | a :: as, c :: cs => if lowerChar c == a then ciPrefix as cs else none

/-- One alternative of the reference-id regex tried at a fixed position:
the label, then any run of separators, then a digit run of length at least
five (the capture). -/
def refLabelAt (label : List Char) (l : List Char) : Option (List Char) :=
  match ciPrefix label l with
  | none => none
  | some rest =>
    let rest2 := rest.dropWhile isRefSep
    let ds := rest2.takeWhile Char.isDigit
    if 5 ≤ ds.length then some ds else none

/-- The reference-id regex attempted at one position: the four labels in
alternation order. -/
def refMatchAt (l : List Char) : Option (List Char) :=
  match refLabelAt "operación".toList l with
  | some ds => some ds
  | none =>
    match refLabelAt "referencia".toList l with
    | some ds => some ds
    | none =>
      match refLabelAt "id".toList l with
      | some ds => some ds
      | none => refLabelAt "comprobante".toList l

/-- Leftmost match of a single (non-global) pattern: positions are tried
left to right. -/
def firstMatchAux {α : Type} (f : List Char → Option α) : List Char → Option α
  | [] => none
  | c :: t =>
    match f (c :: t) with
    | some r => some r
    | none => firstMatchAux f t

/-- The reference-id extraction of `parseTransaction`. -/
def extractReferenceId (fullText : String) : Option String :=
  (firstMatchAux refMatchAt fullText.toList).map String.mk

namespace Multi

/-- `parseTransaction` of the multi-institution worker: external type
detection first with the keyword chain as fallback, then amount (maximum
rule), counterparty (ordered pattern loop) and reference id over
subject-space-body; currency is fixed and the description field is never
assigned. -/
def parseTransaction (counterpartyPatterns : List (String → Option String))
    (typeReply : AiReply) (subject body : String) : TxResult :=
  let subjectLower := jsToLower subject
  let bodyLower := jsToLower body
  let fullText := subject ++ " " ++ body
  let aiType := detectTransactionTypeWithAI typeReply subject (substrN 500 body)
  let ty :=
    match aiType with
    | some t => t
    | none => keywordFallbackType subjectLower bodyLower
  { type := ty
    amount := extractAmount fullText
    currency := "ARS"
    counterparty := selectCounterparty counterpartyPatterns fullText
    description := none
    referenceId := extractReferenceId fullText }

end Multi

/- ============================================================
   Legacy single-institution worker (the file whose sender check is
   `isFromMercadoPago` over a two-address allow list)
   ============================================================ -/

namespace Legacy

/-- The two-entry allow list of the legacy `isFromMercadoPago`. -/
def validSenders : List String := ["info@mercadopago.com", "info@mercadopago.com.ar"]

/-- `isFromMercadoPago` of the legacy worker: true when the lower-cased raw
from string CONTAINS one of the two allowed addresses as a substring
(`includes`), with no bare-address extraction and no tail comparison. -/
def isFromMercadoPago (frm : String) : Bool :=
  if frm = "" then false
  else validSenders.any (fun sender => strContains (jsToLower frm) sender)

/-- `parseTransaction` of the legacy worker: the same deterministic keyword
chain (no external call for the type), then amount, counterparty and
reference id exactly as in the multi-institution worker. -/
def parseTransaction (counterpartyPatterns : List (String → Option String))
    (subject body : String) : TxResult :=
  let subjectLower := jsToLower subject
  let bodyLower := jsToLower body
  let fullText := subject ++ " " ++ body
  { type := Multi.keywordFallbackType subjectLower bodyLower
    amount := extractAmount fullText
    currency := "ARS"
    counterparty := selectCounterparty counterpartyPatterns fullText
    description := none
    referenceId := extractReferenceId fullText }

/-- `categorizeWithAI` of the legacy worker (no transaction-type argument;
same validation and same fallbacks as the multi-institution version). -/
def categorizeWithAI (counterparty description subject : Option String)
    (reply : AiReply) : String :=
  let parts := ([counterparty, description, subject].filterMap id).filter (fun s => s ≠ "")
  let context := jsTrim (String.intercalate " " parts)
  if context = "" then "miscellaneous-other"
  else
    match reply with
    | .err => "miscellaneous-other"
    | .ok resp =>
      let category := sanitizeCategory (resp.getD "")
      if category ∈ VALID_CATEGORIES then category else "miscellaneous-other"

end Legacy

/- ============================================================
   The email handlers
   ============================================================ -/

/-- Character class `[a-z0-9_]` of the user-id regex. -/
def isUserIdChar (c : Char) : Bool :=
  (97 ≤ c.toNat && c.toNat ≤ 122) || c.isDigit || c == '_'

/-- `extractUserId` (identical in both workers): the lower-cased address
must start with `user_`, followed by a nonempty run of id characters whose
very next character is `@`; the run is the extracted id. -/
def extractUserId (email : String) : Option String :=
  if email = "" then none
  else
    let l := (jsToLower email).toList
    if "user_".toList.isPrefixOf l then
      let rest := l.drop 5
      let run := rest.takeWhile isUserIdChar
      if 0 < run.length && (rest.drop run.length).head? == some '@' then
        some (String.mk run)
      else none
    else none

/-- The observable outcome of one handler invocation, classifying which
outbound record (if any) the handler posts via `sendToBackend`.  The
verification-forward path posts to a different endpoint and produces no
transaction record. -/
inductive HandlerOutcome
  | droppedInvalidRecipient
  | verificationForward
  | invalidSenderRecord
  | promotionalRecord
  | parseFailedRecord
  | validRecord
deriving DecidableEq, Repr

/-- Whether the outcome involves a call to `sendToBackend` (an outbound
record on the webhook endpoint). -/
def callsSendToBackend : HandlerOutcome → Bool
  | .droppedInvalidRecipient => false
  | .verificationForward => false
  | .invalidSenderRecord => true
  | .promotionalRecord => true
  | .parseFailedRecord => true
  | .validRecord => true

/-- The sender test diverting Gmail forwarding-verification emails (shared
by both handlers). -/
def isGoogleVerification (frm : String) : Bool :=
  strContains frm "forwarding-noreply@google.com" || strContains frm "noreply@google.com"

namespace Multi

/-- The decision flow of the multi-institution email handler, from the point
where the subject and body have been produced by the normalizer: user-id
check, Gmail-verification diversion, institution identification (silent
drop when none), intent classification (promotional record), transaction
parsing (parse-failed record when no positive amount), else a valid
record. -/
def email (counterpartyPatterns : List (String → Option String))
    (toAddr frm subject emailBody : String)
    (intentReply typeReply : AiReply) : HandlerOutcome :=
  match extractUserId toAddr with
  | none => .droppedInvalidRecipient
  | some _ =>
    if isGoogleVerification frm then .verificationForward
    else
      match identifyInstitution frm with
      | none => .droppedInvalidRecipient
      | some institution =>
        let intent := classifyEmailIntent institution subject (substrN 500 emailBody) intentReply
        if intent.type = "promotional" then .promotionalRecord
        else
          let transaction := parseTransaction counterpartyPatterns typeReply subject emailBody
          if transaction.amount ≤ 0 then .parseFailedRecord
          else .validRecord

end Multi

namespace Legacy

/-- The decision flow of the legacy email handler.  Unlike the
multi-institution handler, an unmatched sender is NOT silently dropped: the
handler posts an invalid record (reason `not_mercadopago`) through
`sendToBackend` before returning. -/
def email (counterpartyPatterns : List (String → Option String))
    (toAddr frm subject emailBody : String) : HandlerOutcome :=
  match extractUserId toAddr with
  | none => .droppedInvalidRecipient
  | some _ =>
    if isGoogleVerification frm then .verificationForward
    else if !isFromMercadoPago frm then .invalidSenderRecord
    else
      let transaction := parseTransaction counterpartyPatterns subject emailBody
      if transaction.amount ≤ 0 then .parseFailedRecord
      else .validRecord

end Legacy

/- ============================================================
   The fingerprint generator: SHA-256 over the UTF-8 bytes of
   subject plus the first 200 characters of the body, rendered as
   lower-case hex (the `createHash` helper of both workers).
   ============================================================ -/

/-- Reduction modulo 2 to the 32. -/
def m32 (n : Nat) : Nat := n % 4294967296

/-- Rotation of a 32-bit word to the right by n positions, in Nat arithmetic. -/
def rotr (n x : Nat) : Nat := x / 2 ^ n + x % 2 ^ n * 2 ^ (32 - n)

/-- Logical right shift. -/
def shr (n x : Nat) : Nat := x / 2 ^ n

/-- SHA-256 big sigma 0. -/
def bigSigma0 (x : Nat) : Nat := rotr 2 x ^^^ rotr 13 x ^^^ rotr 22 x

/-- SHA-256 big sigma 1. -/
def bigSigma1 (x : Nat) : Nat := rotr 6 x ^^^ rotr 11 x ^^^ rotr 25 x

/-- SHA-256 small sigma 0. -/
def smallSigma0 (x : Nat) : Nat := rotr 7 x ^^^ rotr 18 x ^^^ shr 3 x

/-- SHA-256 small sigma 1. -/
def smallSigma1 (x : Nat) : Nat := rotr 17 x ^^^ rotr 19 x ^^^ shr 10 x

/-- SHA-256 choice function. -/
def chFn (x y z : Nat) : Nat := x &&& y ^^^ (x ^^^ 4294967295) &&& z

/-- SHA-256 majority function. -/
def majFn (x y z : Nat) : Nat := x &&& y ^^^ x &&& z ^^^ y &&& z

/-- The 64 round constants of the SHA-256 compression (decimal values of
the FIPS 180-4 table). -/
def sha256K : List Nat := [
  1116352408, 1899447441, 3049323471, 3921009573, 961987163,
  1508970993, 2453635748, 2870763221, 3624381080, 310598401,
  607225278, 1426881987, 1925078388, 2162078206, 2614888103,
  3248222580, 3835390401, 4022224774, 264347078, 604807628,
  770255983, 1249150122, 1555081692, 1996064986, 2554220882,
  2821834349, 2952996808, 3210313671, 3336571891, 3584528711,
  113926993, 338241895, 666307205, 773529912, 1294757372,
  1396182291, 1695183700, 1986661051, 2177026350, 2456956037,
  2730485921, 2820302411, 3259730800, 3345764771, 3516065817,
  3600352804, 4094571909, 275423344, 430227734, 506948616,
  659060556, 883997877, 958139571, 1322822218, 1537002063,
  1747873779, 1955562222, 2024104815, 2227730452, 2361852424,
  2428436474, 2756734187, 3204031479, 3329325298]

/-- The SHA-256 hash state (eight 32-bit words). -/
structure Hstate where
  h0 : Nat
  h1 : Nat
  h2 : Nat
  h3 : Nat
  h4 : Nat
  h5 : Nat
  h6 : Nat
  h7 : Nat
deriving DecidableEq, Repr

/-- The initial SHA-256 state (decimal values of the FIPS 180-4 initial
hash words). -/
def sha256Init : Hstate :=
  ⟨1779033703, 3144134277, 1013904242, 2773480762,
   1359893119, 2600822924, 528734635, 1541459225⟩

/-- Big-endian byte rendering of a number on k bytes. -/
def beBytes (k n : Nat) : List Nat :=
  (List.range k).map (fun i => n / 2 ^ (8 * (k - 1 - i)) % 256)

/-- The sixteen message words of one 64-byte block. -/
def toWords (block : List Nat) : List Nat :=
  (List.range 16).map (fun i =>
    block.getD (4 * i) 0 * 2 ^ 24 + block.getD (4 * i + 1) 0 * 2 ^ 16 +
    block.getD (4 * i + 2) 0 * 2 ^ 8 + block.getD (4 * i + 3) 0)

/-- The 64-entry message schedule of one block. -/
def schedule (w0 : List Nat) : List Nat :=
  (List.range 48).foldl
    (fun w _ =>
      w ++ [m32 (smallSigma1 (w.getD (w.length - 2) 0) + w.getD (w.length - 7) 0 +
                 smallSigma0 (w.getD (w.length - 15) 0) + w.getD (w.length - 16) 0)])
    w0

/-- The SHA-256 compression of one 64-byte block into the running state. -/
def compressBlock (st : Hstate) (block : List Nat) : Hstate :=
  let w := schedule (toWords block)
  let rounds :=
    (List.range 64).foldl
      (fun acc i =>
        let (a, b, c, d, e, f, g, h) := acc
        let t1 := m32 (h + bigSigma1 e + chFn e f g + sha256K.getD i 0 + w.getD i 0)
        let t2 := m32 (bigSigma0 a + majFn a b c)
        (m32 (t1 + t2), a, b, c, m32 (d + t1), e, f, g))
      (st.h0, st.h1, st.h2, st.h3, st.h4, st.h5, st.h6, st.h7)
  match rounds with
  | (a, b, c, d, e, f, g, h) =>
    ⟨m32 (st.h0 + a), m32 (st.h1 + b), m32 (st.h2 + c), m32 (st.h3 + d),
     m32 (st.h4 + e), m32 (st.h5 + f), m32 (st.h6 + g), m32 (st.h7 + h)⟩

/-- SHA-256 message padding: a 0x80 byte, zeros up to 56 modulo 64, then the
bit length on eight big-endian bytes. -/
def sha256Pad (m : List Nat) : List Nat :=
  let k := (64 + 56 - (m.length + 1) % 64) % 64
  m ++ [128] ++ List.replicate k 0 ++ beBytes 8 (8 * m.length)

/-- The 32 digest bytes of a final state. -/
def digestBytes (st : Hstate) : List Nat :=
  beBytes 4 st.h0 ++ beBytes 4 st.h1 ++ beBytes 4 st.h2 ++ beBytes 4 st.h3 ++
  beBytes 4 st.h4 ++ beBytes 4 st.h5 ++ beBytes 4 st.h6 ++ beBytes 4 st.h7

/-- SHA-256 of a byte list. -/
def sha256Bytes (m : List Nat) : List Nat :=
  let padded := sha256Pad m
  let final :=
    (List.range (padded.length / 64)).foldl
      (fun st i => compressBlock st ((padded.drop (64 * i)).take 64))
      sha256Init
  digestBytes final

/-- Lower-case hex digit of a nibble. -/
def hexDigitChar (n : Nat) : Char :=
  if n < 10 then Char.ofNat (48 + n) else Char.ofNat (87 + n)

/-- The per-byte hex rendering of the digest (`toString(16)` padded to two
digits, joined). -/
def bytesToHex (l : List Nat) : List Char :=
  l.foldr (fun b acc => hexDigitChar (b / 16 % 16) :: hexDigitChar (b % 16) :: acc) []

/-- UTF-8 bytes of one character (the `TextEncoder` encoding). -/
def utf8Char (c : Char) : List Nat :=
  let n := c.toNat
  if n < 128 then [n]
  else if n < 2048 then [192 + n / 64, 128 + n % 64]
  else if n < 65536 then [224 + n / 4096, 128 + n / 64 % 64, 128 + n % 64]
  else [240 + n / 262144, 128 + n / 4096 % 64, 128 + n / 64 % 64, 128 + n % 64]

/-- UTF-8 bytes of a string. -/
def utf8Encode (s : String) : List Nat :=
  s.toList.foldr (fun c acc => utf8Char c ++ acc) []

/-- `createHash` from both workers: lower-case hex SHA-256 of the UTF-8
bytes of the argument. -/
def createHash (str : String) : String :=
  String.mk (bytesToHex (sha256Bytes (utf8Encode str)))

/-- The fingerprint input built by both handlers: the subject concatenated
with the first 200 characters of the body. -/
def emailFingerprint (subject emailBody : String) : String :=
  subject ++ substrN 200 emailBody

/-- The idempotency hash (`emailHash`) posted with every valid record. -/
def emailHashOf (subject emailBody : String) : String :=
  createHash (emailFingerprint subject emailBody)

/-- Hex-digit test for the digest alphabet. -/
def isHexChar (c : Char) : Bool :=
  c.isDigit || (97 ≤ c.toNat && c.toNat ≤ 102)

/- ============================================================
   Claim-side auxiliary definitions
   ============================================================ -/

/-- The ten decimal digit characters (the regex class backslash-d). -/
def digitChars : List Char := ['0', '1', '2', '3', '4', '5', '6', '7', '8', '9']

/-- Character class of the counterparty capture groups of the source's six
regex patterns: ASCII letters, the accented Latin-1 range of the class, the
digits admitted by the store-name pattern, and whitespace. -/
def isNameChar (c : Char) : Bool :=
  (65 ≤ c.toNat && c.toNat ≤ 90) || (97 ≤ c.toNat && c.toNat ≤ 122) ||
  (192 ≤ c.toNat && c.toNat ≤ 255) || c.isDigit || isWsChar c

namespace Multi

/-- Whether some promotional keyword occurs in the text. -/
def hasPromoKeyword (fullText : String) : Bool :=
  PROMOTIONAL_KEYWORDS.any (fun kw => strContains fullText kw)

/-- Whether some transaction keyword occurs in the text. -/
def hasTxKeyword (fullText : String) : Bool :=
  transactionKeywords.any (fun kw => strContains fullText kw)

end Multi

/-- A concrete capture function used to instantiate the counterparty
selection policy: always captures a one-character string. -/
def shortPattern : String → Option String := fun _ => some "x"

/-- A concrete capture function used to instantiate the counterparty
selection policy: always captures an untrimmed name. -/
def namePattern : String → Option String := fun _ => some "  Juan Perez  "

/- ============================================================
   Theorems.  Helper lemmas first, then one theorem per claim
   (with witnesses where the statement carries hypotheses).
   ============================================================ -/

theorem ite_gt_eq_max (m q : ℚ) : (if q > m then q else m) = max m q := by
  rcases le_or_lt q m with h | h
  · rw [if_neg (not_lt.mpr h), max_eq_left h]
  · rw [if_pos h, max_eq_right h.le]

theorem foldr_max_shift (p : List Char → ℚ) :
    ∀ (t : List (List Char)) (a b : ℚ),
      t.foldr (fun x r => max (p x) r) (max a b) = max b (t.foldr (fun x r => max (p x) r) a) := by
  intro t
  induction t with
  | nil => intro a b; simp [max_comm]
  | cons y t ih => intro a b; simp only [List.foldr_cons, ih, max_left_comm]

theorem foldl_if_eq_foldr_max (p : List Char → ℚ) :
    ∀ (l : List (List Char)) (a : ℚ),
      l.foldl (fun m x => if p x > m then p x else m) a
        = l.foldr (fun x r => max (p x) r) a := by
  intro l
  induction l with
  | nil => intro a; rfl
  | cons x t ih =>
    intro a
    simp only [List.foldl_cons, List.foldr_cons]
    rw [ite_gt_eq_max, ih, foldr_max_shift]

theorem extractAmount_eq_foldr (text : String) :
    extractAmount text
      = (amountCandidates text).foldr
          (fun m r => max (parseArgentineAmount (String.mk m)) r) 0 :=
  foldl_if_eq_foldr_max (fun m => parseArgentineAmount (String.mk m)) (amountCandidates text) 0

theorem le_foldr_max (p : List Char → ℚ) :
    ∀ (l : List (List Char)) (a : ℚ), a ≤ l.foldr (fun x r => max (p x) r) a := by
  intro l
  induction l with
  | nil => intro a; exact le_refl a
  | cons x t ih => intro a; exact le_trans (ih a) (le_max_right _ _)

/-- Claim C3: for every input text, the amount extractor scans all matches
of the two numeric patterns and returns the maximum parsed value over all of
them, not the first; a text containing both a 50 and a 1.200 dollar amount
yields 1200. -/
theorem extractAmount_returns_maximum :
    (∀ text : String,
        extractAmount text
          = ((amountCandidates text).map (fun m => parseArgentineAmount (String.mk m))).foldr
              max 0)
    ∧ extractAmount "Pagaste $50 de un total de $1.200" = 1200 := by
  constructor
  · intro text
    rw [extractAmount_eq_foldr, List.foldr_map]
  · with_unfolding_all rfl

theorem extractAmount_returns_maximum_witness :
    extractAmount "$7"
      = ((amountCandidates "$7").map (fun m => parseArgentineAmount (String.mk m))).foldr max 0 :=
  extractAmount_returns_maximum.1 "$7"

/-- Claim C9: the extracted amount is never negative: the running maximum
starts at zero, and a candidate that fails to parse contributes zero (never
a non-number), as the two closing example conjuncts evaluate. -/
theorem extractAmount_nonneg :
    (∀ text : String, 0 ≤ extractAmount text)
    ∧ parseArgentineAmount "." = 0
    ∧ extractAmount "$." = 0 := by
  refine ⟨fun text => ?_, by with_unfolding_all rfl, by with_unfolding_all rfl⟩
  rw [extractAmount_eq_foldr]
  exact le_foldr_max _ _ 0

theorem extractAmount_nonneg_witness : 0 ≤ extractAmount "hola" :=
  extractAmount_nonneg.1 "hola"

/-- Claim C10: the category assigned by the categorizer is always one of the
nine fixed identifiers; a thrown external call, an invalid sanitized answer,
and an all-empty context each yield the miscellaneous default; the function
is total (it never throws). -/
theorem categorize_always_valid :
    (∀ cp d s ty reply, Multi.categorizeWithAI cp d s ty reply ∈ VALID_CATEGORIES)
    ∧ (∀ cp d s ty, Multi.categorizeWithAI cp d s ty .err = "miscellaneous-other")
    ∧ (∀ cp d s ty resp, sanitizeCategory (resp.getD "") ∉ VALID_CATEGORIES →
          Multi.categorizeWithAI cp d s ty (.ok resp) = "miscellaneous-other")
    ∧ (∀ ty reply, Multi.categorizeWithAI none none none ty reply = "miscellaneous-other")
    ∧ (∀ cp d s reply, Legacy.categorizeWithAI cp d s reply ∈ VALID_CATEGORIES) := by
  refine ⟨?_, ?_, ?_, ?_, ?_⟩
  · intro cp d s ty reply
    simp only [Multi.categorizeWithAI]
    split
    · decide
    · cases reply with
      | err => decide
      | ok resp =>
        dsimp only
        split
        · next h => exact h
        · decide
  · intro cp d s ty
    simp only [Multi.categorizeWithAI]
    split <;> rfl
  · intro cp d s ty resp h
    simp only [Multi.categorizeWithAI]
    split <;> rfl
  · intro ty reply
    rfl
  · intro cp d s reply
    simp only [Legacy.categorizeWithAI]
    split
    · decide
    · cases reply with
      | err => decide
      | ok resp =>
        dsimp only
        split
        · next h => exact h
        · decide

theorem categorize_always_valid_witness :
    Multi.categorizeWithAI (some "Netflix") none (some "Pago") "payment_sent" (.ok (some "zzz"))
      = "miscellaneous-other" :=
  categorize_always_valid.2.2.1 (some "Netflix") none (some "Pago") "payment_sent"
    (some "zzz") (by decide)

theorem String_mk_length (l : List Char) : (String.mk l).length = l.length := rfl

theorem String_mk_toList (l : List Char) : (String.mk l).toList = l := rfl

theorem length_bytesToHex : ∀ l : List Nat, (bytesToHex l).length = 2 * l.length := by
  intro l
  induction l with
  | nil => rfl
  | cons b t ih =>
    simp only [bytesToHex, List.foldr_cons, List.length_cons] at ih ⊢
    omega

theorem length_beBytes (k n : Nat) : (beBytes k n).length = k := by
  simp [beBytes]

theorem length_sha256Bytes (m : List Nat) : (sha256Bytes m).length = 32 := by
  simp [sha256Bytes, digestBytes, List.length_append, length_beBytes]

theorem isHexChar_hexDigitChar {n : Nat} (h : n < 16) : isHexChar (hexDigitChar n) = true := by
  interval_cases n <;> decide

theorem mem_bytesToHex_isHex : ∀ (l : List Nat) (c : Char), c ∈ bytesToHex l → isHexChar c = true := by
  intro l
  induction l with
  | nil => intro c hc; simp [bytesToHex] at hc
  | cons b t ih =>
    intro c hc
    simp only [bytesToHex, List.foldr_cons] at hc
    rcases List.mem_cons.mp hc with h1 | hc2
    · subst h1; exact isHexChar_hexDigitChar (Nat.mod_lt _ (by norm_num))
    · rcases List.mem_cons.mp hc2 with h2 | hc3
      · subst h2; exact isHexChar_hexDigitChar (Nat.mod_lt _ (by norm_num))
      · exact ih c (by simpa [bytesToHex] using hc3)

/-- Claim C7: the fingerprint is a pure deterministic function of the
subject and the first 200 characters of the body: bodies agreeing on their
first 200 characters give the same hash for every subject, and the output
is always a fixed-length (64-character) lower-case hex string. -/
theorem fingerprint_pure_and_hex :
    (∀ s b1 b2 : String, b1.toList.take 200 = b2.toList.take 200 →
        emailHashOf s b1 = emailHashOf s b2)
    ∧ (∀ s b : String, (emailHashOf s b).length = 64
        ∧ ∀ c ∈ (emailHashOf s b).toList, isHexChar c = true) := by
  constructor
  · intro s b1 b2 h
    unfold emailHashOf emailFingerprint substrN
    rw [h]
  · intro s b
    constructor
    · show (String.mk (bytesToHex (sha256Bytes (utf8Encode (emailFingerprint s b))))).length = 64
      rw [String_mk_length, length_bytesToHex, length_sha256Bytes]
    · intro c hc
      exact mem_bytesToHex_isHex (sha256Bytes (utf8Encode (emailFingerprint s b))) c hc

theorem fingerprint_pure_and_hex_witness :
    emailHashOf "Recibiste" "abcdef" = emailHashOf "Recibiste" "abcdef"
      ∧ (emailHashOf "a" "b").length = 64 :=
  ⟨fingerprint_pure_and_hex.1 "Recibiste" "abcdef" "abcdef" rfl,
   (fingerprint_pure_and_hex.2 "a" "b").1⟩

set_option maxRecDepth 100000 in
theorem createHash_empty_vector :
    createHash "" = "e3b0c44298fc1c149afbf4c8996fb92427ae41e4649b934ca495991b7852b855" := by
  decide

set_option maxRecDepth 100000 in
theorem createHash_abc_vector :
    createHash "abc" = "ba7816bf8f01cfea414140de5dae2223b00361a396177a9cb410ff61f20015ad" := by
  decide

theorem find?_eq_none_of_any_eq_false {α : Type} (p : α → Bool) (l : List α)
    (h : l.any p = false) : l.find? p = none := by
  rw [List.find?_eq_none]
  intro x hx
  simp only [List.any_eq_false] at h
  simp [h x hx]

/-- Claim C5 (amended): intent classification applies its rules in fixed
order with first-applicable-wins: promotional keyword, then marketing-list
sender, then transaction keyword, then the external classifier (an answer
containing the token transaction means a transaction), with the source's
confidence literals keyword, domain, keyword, ai (the label the spec calls
model) and, on external-call failure, the transaction fallback with
confidence fallback. -/
theorem classifyEmailIntent_rule_order (institution : InstMatch)
    (subject bodyPreview : String) (reply : AiReply) :
    (Multi.hasPromoKeyword (jsToLower subject ++ " " ++ jsToLower bodyPreview) = true →
        (Multi.classifyEmailIntent institution subject bodyPreview reply).type = "promotional"
        ∧ (Multi.classifyEmailIntent institution subject bodyPreview reply).confidence = "keyword")
    ∧ (Multi.hasPromoKeyword (jsToLower subject ++ " " ++ jsToLower bodyPreview) = false →
        institution.isMarketing = true →
        Multi.classifyEmailIntent institution subject bodyPreview reply
          = ⟨"promotional", "domain", "marketing domain"⟩)
    ∧ (Multi.hasPromoKeyword (jsToLower subject ++ " " ++ jsToLower bodyPreview) = false →
        institution.isMarketing = false →
        Multi.hasTxKeyword (jsToLower subject ++ " " ++ jsToLower bodyPreview) = true →
        (Multi.classifyEmailIntent institution subject bodyPreview reply).type = "transaction"
        ∧ (Multi.classifyEmailIntent institution subject bodyPreview reply).confidence = "keyword")
    ∧ (∀ resp, Multi.hasPromoKeyword (jsToLower subject ++ " " ++ jsToLower bodyPreview) = false →
        institution.isMarketing = false →
        Multi.hasTxKeyword (jsToLower subject ++ " " ++ jsToLower bodyPreview) = false →
        reply = .ok resp →
        Multi.classifyEmailIntent institution subject bodyPreview reply
          = ⟨if strContains (Multi.aiRespText resp) "transaction" then "transaction"
             else "promotional", "ai", "AI: " ++ Multi.aiRespText resp⟩)
    ∧ (Multi.hasPromoKeyword (jsToLower subject ++ " " ++ jsToLower bodyPreview) = false →
        institution.isMarketing = false →
        Multi.hasTxKeyword (jsToLower subject ++ " " ++ jsToLower bodyPreview) = false →
        reply = .err →
        Multi.classifyEmailIntent institution subject bodyPreview reply
          = ⟨"transaction", "fallback", "AI error"⟩) := by
  refine ⟨?_, ?_, ?_, ?_, ?_⟩
  · intro hp
    obtain ⟨kw, hkw, hpkw⟩ := List.any_eq_true.mp hp
    simp only [Multi.classifyEmailIntent]
    cases hfind : List.find?
        (fun kw => strContains (jsToLower subject ++ " " ++ jsToLower bodyPreview) kw)
        Multi.PROMOTIONAL_KEYWORDS with
    | none => exact absurd hpkw (by simpa using List.find?_eq_none.mp hfind kw hkw)
    | some k => exact ⟨rfl, rfl⟩
  · intro hp hm
    have hfind := find?_eq_none_of_any_eq_false
      (fun kw => strContains (jsToLower subject ++ " " ++ jsToLower bodyPreview) kw)
      Multi.PROMOTIONAL_KEYWORDS hp
    simp only [Multi.classifyEmailIntent, hfind, hm, if_true]
  · intro hp hm ht
    obtain ⟨kw, hkw, htkw⟩ := List.any_eq_true.mp ht
    have hfind := find?_eq_none_of_any_eq_false
      (fun kw => strContains (jsToLower subject ++ " " ++ jsToLower bodyPreview) kw)
      Multi.PROMOTIONAL_KEYWORDS hp
    simp only [Multi.classifyEmailIntent, hfind, hm, Bool.false_eq_true, if_false]
    cases hfindT : List.find?
        (fun kw => strContains (jsToLower subject ++ " " ++ jsToLower bodyPreview) kw)
        Multi.transactionKeywords with
    | none => exact absurd htkw (by simpa using List.find?_eq_none.mp hfindT kw hkw)
    | some k => exact ⟨rfl, rfl⟩
  · intro resp hp hm ht hreply
    subst hreply
    have hfindP := find?_eq_none_of_any_eq_false
      (fun kw => strContains (jsToLower subject ++ " " ++ jsToLower bodyPreview) kw)
      Multi.PROMOTIONAL_KEYWORDS hp
    have hfindT := find?_eq_none_of_any_eq_false
      (fun kw => strContains (jsToLower subject ++ " " ++ jsToLower bodyPreview) kw)
      Multi.transactionKeywords ht
    simp only [Multi.classifyEmailIntent, hfindP, hfindT, hm, Bool.false_eq_true, if_false]
  · intro hp hm ht hreply
    subst hreply
    have hfindP := find?_eq_none_of_any_eq_false
      (fun kw => strContains (jsToLower subject ++ " " ++ jsToLower bodyPreview) kw)
      Multi.PROMOTIONAL_KEYWORDS hp
    have hfindT := find?_eq_none_of_any_eq_false
      (fun kw => strContains (jsToLower subject ++ " " ++ jsToLower bodyPreview) kw)
      Multi.transactionKeywords ht
    simp only [Multi.classifyEmailIntent, hfindP, hfindT, hm, Bool.false_eq_true, if_false]

theorem classifyEmailIntent_rule_order_witness :
    Multi.classifyEmailIntent ⟨"uala", "Uala", "fintech", false⟩ "zzz" "zzz" .err
      = ⟨"transaction", "fallback", "AI error"⟩ :=
  (classifyEmailIntent_rule_order ⟨"uala", "Uala", "fintech", false⟩ "zzz" "zzz" .err).2.2.2.2
    (by decide) rfl (by decide) rfl

/-- Claim C5 counterexample: on the model path the source labels the
confidence with the literal ai, not model, as the claim states. -/
theorem classifyEmailIntent_model_label_cex :
    (Multi.classifyEmailIntent ⟨"mercadopago", "Mercado Pago", "fintech", false⟩ "zzz" "zzz"
        (.ok (some "transaction"))).confidence = "ai"
    ∧ (Multi.classifyEmailIntent ⟨"mercadopago", "Mercado Pago", "fintech", false⟩ "zzz" "zzz"
        (.ok (some "transaction"))).confidence ≠ "model" := by
  constructor <;> decide

/-- Claim C6: when the external type classifier throws or returns a value
outside the closed enumeration, transaction-type determination falls back to
the ordered keyword chain over the lower-cased subject (and body for the
refund and withdrawal groups), with every money-in group checked before any
money-out group, first match wins and unknown when nothing matches; the
whole determination is a total function (it never throws). -/
theorem transactionType_fallback :
    (∀ su bp, Multi.detectTransactionTypeWithAI .err su bp = none)
    ∧ (∀ s su bp, sanitizeType s ∉ VALID_TRANSACTION_TYPES →
        Multi.detectTransactionTypeWithAI (.ok (some s)) su bp = none)
    ∧ (∀ ps reply su b,
        Multi.detectTransactionTypeWithAI reply su (substrN 500 b) = none →
        (Multi.parseTransaction ps reply su b).type
          = Multi.keywordFallbackType (jsToLower su) (jsToLower b))
    ∧ (∀ sl bl, Multi.moneyInHit sl bl = true →
        Multi.keywordFallbackType sl bl
          ∈ ["transfer_received", "payment_received", "refund_received", "deposit"])
    ∧ (∀ sl bl, Multi.moneyInHit sl bl = false → Multi.moneyOutHit sl bl = false →
        Multi.keywordFallbackType sl bl = "unknown") := by
  refine ⟨?_, ?_, ?_, ?_, ?_⟩
  · intro su bp; rfl
  · intro s su bp h
    simp only [Multi.detectTransactionTypeWithAI]
    exact if_neg h
  · intro ps reply su b h
    simp only [Multi.parseTransaction, h]
  · intro sl bl hin
    unfold Multi.keywordFallbackType
    split_ifs <;>
      first
        | decide
        | simp_all [Multi.moneyInHit, Bool.or_eq_true, Bool.eq_false_iff, not_or]
  · intro sl bl hin hout
    unfold Multi.keywordFallbackType
    split_ifs <;>
      first
        | rfl
        | simp_all [Multi.moneyInHit, Multi.moneyOutHit, Bool.or_eq_true, Bool.eq_false_iff,
            not_or]

theorem transactionType_fallback_witness :
    (Multi.parseTransaction [] AiReply.err "Recibiste una transferencia" "hola").type
      = "transfer_received" := by
  have h := transactionType_fallback.2.2.1 [] AiReply.err "Recibiste una transferencia" "hola" rfl
  rw [h]
  decide

theorem mem_of_getLast?_eq_some {l : List Char} {a : Char} (h : l.getLast? = some a) :
    a ∈ l := by
  obtain ⟨hne, heq⟩ := List.mem_getLast?_eq_getLast (Option.mem_def.mpr h)
  rw [heq]
  exact List.getLast_mem hne

theorem getLast?_trimList_not_ws {l : List Char} {a : Char}
    (h : (trimList l).getLast? = some a) : isWsChar a = false := by
  unfold trimList at h
  rw [List.getLast?_reverse] at h
  have hm := List.head?_dropWhile_not isWsChar (l.dropWhile isWsChar).reverse
  rw [h] at hm
  exact hm

theorem mem_of_mem_trimList {l : List Char} {a : Char} (h : a ∈ trimList l) : a ∈ l := by
  unfold trimList at h
  rw [List.mem_reverse] at h
  have h2 := List.dropWhile_subset isWsChar h
  rw [List.mem_reverse] at h2
  exact List.dropWhile_subset isWsChar h2

theorem selectCounterparty_some_spec :
    ∀ (ps : List (String → Option String)) (t : String) (r : String),
      selectCounterparty ps t = some r →
      ∃ p, p ∈ ps ∧ ∃ c, p t = some c ∧ r = jsTrim c ∧ 1 < r.length := by
  intro ps t
  induction ps with
  | nil => intro r h; simp [selectCounterparty] at h
  | cons p rest ih =>
    intro r h
    simp only [selectCounterparty] at h
    cases hp : p t with
    | none =>
      rw [hp] at h
      obtain ⟨q, hq, c, hc, hr, hl⟩ := ih r h
      exact ⟨q, List.mem_cons_of_mem p hq, c, hc, hr, hl⟩
    | some cap =>
      rw [hp] at h
      dsimp only at h
      by_cases hl : 1 < (jsTrim cap).length
      · rw [if_pos hl] at h
        obtain rfl : jsTrim cap = r := Option.some.inj h
        exact ⟨p, List.mem_cons_self p rest, cap, hp, rfl, hl⟩
      · rw [if_neg hl] at h
        obtain ⟨q, hq, c, hc, hr, hlen⟩ := ih r h
        exact ⟨q, List.mem_cons_of_mem p hq, c, hc, hr, hlen⟩

/-- Claim C8: counterparty extraction evaluates the pattern list in
declaration order, accepts the first pattern whose capture has trimmed
length strictly greater than 1, returns absent when no pattern qualifies,
and returns the accepted capture trimmed; when every capture lies in the
letter/digit/whitespace class of the source's capture groups (so no
punctuation or markers can be captured), the returned value ends in a
letter or digit, never in whitespace, punctuation or a marker. -/
theorem counterparty_selection :
    (∀ ps reply subject body,
        (Multi.parseTransaction ps reply subject body).counterparty
          = selectCounterparty ps (subject ++ " " ++ body))
    ∧ (∀ (ps : List (String → Option String)) t,
        (∀ p ∈ ps, ∀ c, p t = some c → (jsTrim c).length ≤ 1) →
        selectCounterparty ps t = none)
    ∧ (∀ (ps1 : List (String → Option String)) (p : String → Option String) ps2 t c,
        (∀ q ∈ ps1, ∀ c2, q t = some c2 → (jsTrim c2).length ≤ 1) →
        p t = some c → 1 < (jsTrim c).length →
        selectCounterparty (ps1 ++ p :: ps2) t = some (jsTrim c))
    ∧ (∀ (ps : List (String → Option String)) t r,
        selectCounterparty ps t = some r →
        ∃ p, p ∈ ps ∧ ∃ c, p t = some c ∧ r = jsTrim c ∧ 1 < r.length)
    ∧ (∀ (ps : List (String → Option String)) t r,
        (∀ q ∈ ps, ∀ c, q t = some c → ∀ ch ∈ c.toList, isNameChar ch = true) →
        selectCounterparty ps t = some r →
        r.toList ≠ []
          ∧ ∀ a, r.toList.getLast? = some a → isWsChar a = false ∧ isNameChar a = true) := by
  refine ⟨fun _ _ _ _ => rfl, ?_, ?_, selectCounterparty_some_spec, ?_⟩
  · intro ps t
    induction ps with
    | nil => intro h; rfl
    | cons p rest ih =>
      intro h
      simp only [selectCounterparty]
      cases hp : p t with
      | none => exact ih (fun q hq c hc => h q (List.mem_cons_of_mem p hq) c hc)
      | some cap =>
        dsimp only
        rw [if_neg (not_lt.mpr (h p (List.mem_cons_self p rest) cap hp))]
        exact ih (fun q hq c hc => h q (List.mem_cons_of_mem p hq) c hc)
  · intro ps1 p ps2 t c hshort hp hl
    induction ps1 with
    | nil =>
      simp only [List.nil_append, selectCounterparty, hp]
      rw [if_pos hl]
    | cons q qs ih =>
      simp only [List.cons_append, selectCounterparty]
      cases hq : q t with
      | none => exact ih (fun x hx c2 hc2 => hshort x (List.mem_cons_of_mem q hx) c2 hc2)
      | some c2 =>
        dsimp only
        rw [if_neg (not_lt.mpr (hshort q (List.mem_cons_self q qs) c2 hq))]
        exact ih (fun x hx c3 hc3 => hshort x (List.mem_cons_of_mem q hx) c3 hc3)
  · intro ps t r hclass hsel
    obtain ⟨p, hmem, c, hp, hr, hlen⟩ := selectCounterparty_some_spec ps t r hsel
    have hrl : r.toList = trimList c.toList := by rw [hr]; rfl
    have hne : r.toList ≠ [] := by
      intro he
      have : r.length = 0 := by
        have : r.length = r.toList.length := rfl
        rw [this, he]
        rfl
      omega
    refine ⟨hne, fun a ha => ?_⟩
    rw [hrl] at ha
    refine ⟨getLast?_trimList_not_ws ha, ?_⟩
    exact hclass p hmem c hp a (mem_of_mem_trimList (mem_of_getLast?_eq_some ha))

theorem counterparty_selection_witness :
    selectCounterparty [shortPattern, namePattern] "texto" = some "Juan Perez" := by
  have e : jsTrim "  Juan Perez  " = "Juan Perez" := by decide
  have h := counterparty_selection.2.2.1 [shortPattern] namePattern [] "texto" "  Juan Perez  "
    (by
      intro q hq c2 hc2
      simp only [List.mem_singleton] at hq
      subst hq
      simp only [shortPattern] at hc2
      injection hc2 with h2
      subst h2
      decide)
    rfl (by decide)
  rw [e] at h
  exact h

/-- Claim C1 (amended): in the multi-institution worker, a message whose
sender matches no institution is silently dropped: the handler returns
without calling sendToBackend, whatever the rest of the message and the
external classifier do. -/
theorem email_unknown_sender_silent (ps : List (String → Option String))
    (toAddr frm subject body : String) (intentReply typeReply : AiReply)
    (h : Multi.identifyInstitution frm = none) :
    callsSendToBackend (Multi.email ps toAddr frm subject body intentReply typeReply)
      = false := by
  simp only [Multi.email]
  cases hu : extractUserId toAddr with
  | none => rfl
  | some u =>
    dsimp only
    split
    · rfl
    · rw [h]
      rfl

theorem email_unknown_sender_silent_witness :
    callsSendToBackend
        (Multi.email [] "user_1@jamty.xyz" "unknown@random.com" "s" "b" .err .err) = false :=
  email_unknown_sender_silent [] "user_1@jamty.xyz" "unknown@random.com" "s" "b" .err .err
    (by decide)

/-- Claim C1 counterexample: in the legacy single-institution worker, a
message from a sender matching no institution still produces an outbound
record through sendToBackend (the invalid record with reason
not_mercadopago), so the pipeline does not silently drop it. -/
theorem legacy_unknown_sender_emits_record_cex :
    Multi.identifyInstitution "unknown@random.com" = none
    ∧ Legacy.isFromMercadoPago "unknown@random.com" = false
    ∧ Legacy.email [] "user_123@jamty.xyz" "unknown@random.com" "Hola" "cuerpo"
        = HandlerOutcome.invalidSenderRecord
    ∧ callsSendToBackend
        (Legacy.email [] "user_123@jamty.xyz" "unknown@random.com" "Hola" "cuerpo") = true := by
  refine ⟨by decide, by decide, by decide, by decide⟩

theorem findInst_isSome_iff :
    ∀ (l : List Institution) (e : String),
      (Multi.findInst l e).isSome = true ↔
        ∃ inst ∈ l, ∃ d ∈ inst.transactionalDomains ++ inst.marketingDomains,
          domainMatches e d = true := by
  intro l e
  induction l with
  | nil => simp [Multi.findInst]
  | cons inst rest ih =>
    simp only [Multi.findInst]
    cases htd : inst.transactionalDomains.find? (fun d => domainMatches e d) with
    | some d =>
      dsimp only
      simp only [Option.isSome_some, true_iff]
      exact ⟨inst, List.mem_cons_self _ _, d,
        List.mem_append_left _ (List.mem_of_find?_eq_some htd), List.find?_some htd⟩
    | none =>
      dsimp only
      cases hmd : inst.marketingDomains.find? (fun d => domainMatches e d) with
      | some d =>
        dsimp only
        simp only [Option.isSome_some, true_iff]
        exact ⟨inst, List.mem_cons_self _ _, d,
          List.mem_append_right _ (List.mem_of_find?_eq_some hmd), List.find?_some hmd⟩
      | none =>
        dsimp only
        rw [ih]
        constructor
        · rintro ⟨i, hi, d, hd, hm⟩
          exact ⟨i, List.mem_cons_of_mem _ hi, d, hd, hm⟩
        · rintro ⟨i, hi, d, hd, hm⟩
          rcases List.mem_cons.mp hi with rfl | hi2
          · rcases List.mem_append.mp hd with h1 | h2
            · exact absurd hm (by simpa using List.find?_eq_none.mp htd d h1)
            · exact absurd hm (by simpa using List.find?_eq_none.mp hmd d h2)
          · exact ⟨i, hi2, d, hd, hm⟩

/-- Claim C2 (amended): the registry matcher of the multi-institution worker
matches exactly as the claim states (leading-at entries by exact tail
comparison of the bare case-folded address, other entries by whole-address
equality, registry order), and an address containing a registered address as
an inner substring does not match it; the legacy isFromMercadoPago matcher,
by contrast, matches by raw substring containment (see the counterexample). -/
theorem institution_matching_rule :
    (∀ frm, extractEmailAddress frm ≠ "" →
        ((Multi.identifyInstitution frm).isSome = true ↔
          ∃ inst ∈ Multi.FINANCIAL_INSTITUTIONS,
            ∃ d ∈ inst.transactionalDomains ++ inst.marketingDomains,
              domainMatches (extractEmailAddress frm) d = true))
    ∧ strContains (extractEmailAddress "info@mercadopago.com.evil.net") "info@mercadopago.com"
        = true
    ∧ Multi.identifyInstitution "info@mercadopago.com.evil.net" = none := by
  refine ⟨?_, by decide, by decide⟩
  intro frm h
  simp only [Multi.identifyInstitution]
  rw [if_neg h]
  exact findInst_isSome_iff Multi.FINANCIAL_INSTITUTIONS (extractEmailAddress frm)

theorem institution_matching_rule_witness :
    (Multi.identifyInstitution "info@mercadopago.com").isSome = true :=
  (institution_matching_rule.1 "info@mercadopago.com" (by decide)).mpr
    ⟨⟨"mercadopago", "Mercado Pago", "fintech",
        ["info@mercadopago.com", "info@mercadopago.com.ar"],
        ["marketing@mercadopago.com", "marketing@mercadopago.com.ar",
          "promociones@mercadopago.com"]⟩,
      by decide, "info@mercadopago.com", by decide, by decide⟩

/-- Claim C2 counterexample: the legacy matcher accepts an address that
merely contains a registered exact address as an inner substring, although
it equals no registry entry; the registry matcher rejects the same
address. -/
theorem legacy_substring_matching_cex :
    Legacy.isFromMercadoPago "attacker-info@mercadopago.com.evil.net" = true
    ∧ ("attacker-info@mercadopago.com.evil.net" : String) ≠ "info@mercadopago.com"
    ∧ ("attacker-info@mercadopago.com.evil.net" : String) ≠ "info@mercadopago.com.ar"
    ∧ Multi.identifyInstitution "attacker-info@mercadopago.com.evil.net" = none := by
  refine ⟨by decide, by decide, by decide, by decide⟩

theorem dropWhile_eq_self_of_all (p : Char → Bool) (l : List Char)
    (h : ∀ c ∈ l, p c = false) : l.dropWhile p = l := by
  cases l with
  | nil => rfl
  | cons c t => simp [List.dropWhile_cons, h c (List.mem_cons_self c t)]

theorem trimList_eq_self {l : List Char} (h : ∀ c ∈ l, isWsChar c = false) :
    trimList l = l := by
  unfold trimList
  rw [dropWhile_eq_self_of_all _ _ h,
    dropWhile_eq_self_of_all _ _ (fun c hc => h c (List.mem_reverse.mp hc)),
    List.reverse_reverse]

theorem takeWhile_eq_self_of_all (p : Char → Bool) :
    ∀ (l : List Char), (∀ c ∈ l, p c = true) → l.takeWhile p = l := by
  intro l
  induction l with
  | nil => intro h; rfl
  | cons c t ih =>
    intro h
    simp [List.takeWhile_cons, h c (List.mem_cons_self c t),
      ih (fun x hx => h x (List.mem_cons_of_mem c hx))]

theorem takeWhile_append_stop (p : Char → Bool) (x : Char) (r : List Char)
    (hx : p x = false) :
    ∀ (l : List Char), (∀ c ∈ l, p c = true) → (l ++ x :: r).takeWhile p = l := by
  intro l
  induction l with
  | nil => intro _; simp [List.takeWhile_cons, hx]
  | cons c t ih =>
    intro h
    simp [List.takeWhile_cons, h c (List.mem_cons_self c t),
      ih (fun y hy => h y (List.mem_cons_of_mem c hy))]

theorem replaceFirst_append_comma (r : List Char) :
    ∀ (l : List Char), (∀ c ∈ l, (c == ',') = false) →
      replaceFirst (l ++ ',' :: r) ',' '.' = l ++ '.' :: r := by
  intro l
  induction l with
  | nil => simp [replaceFirst]
  | cons c t ih =>
    intro h
    simp only [List.cons_append, replaceFirst, h c (List.mem_cons_self c t), Bool.false_eq_true,
      if_false, List.cons.injEq, true_and]
    exact ih (fun y hy => h y (List.mem_cons_of_mem c hy))

theorem digitChars_isDigit {c : Char} (h : c ∈ digitChars) : c.isDigit = true := by
  fin_cases h <;> decide

theorem digitChars_not_ws {c : Char} (h : c ∈ digitChars) : isWsChar c = false := by
  fin_cases h <;> decide

theorem digitChars_ne_dot {c : Char} (h : c ∈ digitChars) : (c != '.') = true := by
  fin_cases h <;> decide

theorem digitChars_ne_comma {c : Char} (h : c ∈ digitChars) : (c == ',') = false := by
  fin_cases h <;> decide

theorem digit_not_ws {c : Char} (h : c.isDigit = true) : isWsChar c = false := by
  cases hw : isWsChar c
  · rfl
  · exfalso
    simp only [isWsChar, Bool.or_eq_true, beq_iff_eq] at hw
    rcases hw with ((((rfl | rfl) | rfl) | rfl) | rfl) | rfl <;> exact absurd h (by decide)

theorem endsCommaDD_append (ds : List Char) {d1 d2 : Char}
    (h1 : d1.isDigit = true) (h2 : d2.isDigit = true) :
    endsCommaDD (ds ++ [',', d1, d2]) = true := by
  unfold endsCommaDD
  rw [show (ds ++ [',', d1, d2]).reverse = d2 :: d1 :: ',' :: ds.reverse by simp]
  simp [h1, h2]

theorem endsCommaDD_no_comma {l : List Char} (h : ∀ c ∈ l, (c == ',') = false) :
    endsCommaDD l = false := by
  unfold endsCommaDD
  rcases hrev : l.reverse with _ | ⟨a, _ | ⟨b, _ | ⟨c, t⟩⟩⟩
  · rfl
  · rfl
  · rfl
  · have hc : (c == ',') = false := by
      refine h c ?_
      rw [← List.mem_reverse, hrev]
      simp
    simp [hc]

theorem parseFloatQ_int_frac (ds f1 : List Char)
    (hds : ∀ c ∈ ds, c.isDigit = true) (hf : ∀ c ∈ f1, c.isDigit = true)
    (hne : f1.isEmpty = false) :
    parseFloatQ (ds ++ '.' :: f1)
      = some ((natOfDigits ds : ℚ) + (natOfDigits f1 : ℚ) / ((10 : ℚ) ^ f1.length)) := by
  have hnws : ∀ c ∈ ds ++ '.' :: f1, isWsChar c = false := by
    intro c hc
    rcases List.mem_append.mp hc with h | h
    · exact digit_not_ws (hds c h)
    · rcases List.mem_cons.mp h with rfl | h2
      · decide
      · exact digit_not_ws (hf c h2)
  have hminus : ¬((ds ++ '.' :: f1).head? = some '-') := by
    cases ds with
    | nil =>
      intro heq
      rw [List.nil_append, List.head?_cons] at heq
      exact absurd (Option.some.inj heq) (by decide)
    | cons c t =>
      intro heq
      rw [List.cons_append, List.head?_cons] at heq
      have hc := Option.some.inj heq
      subst hc
      exact absurd (hds _ (List.mem_cons_self _ _)) (by decide)
  have hplus : ¬((ds ++ '.' :: f1).head? = some '+') := by
    cases ds with
    | nil =>
      intro heq
      rw [List.nil_append, List.head?_cons] at heq
      exact absurd (Option.some.inj heq) (by decide)
    | cons c t =>
      intro heq
      rw [List.cons_append, List.head?_cons] at heq
      have hc := Option.some.inj heq
      subst hc
      exact absurd (hds _ (List.mem_cons_self _ _)) (by decide)
  have hor : ¬((ds ++ '.' :: f1).head? = some '-' ∨ (ds ++ '.' :: f1).head? = some '+') := by
    rintro (h | h)
    · exact hminus h
    · exact hplus h
  simp only [parseFloatQ]
  rw [dropWhile_eq_self_of_all _ _ hnws]
  rw [if_neg hminus, if_neg hor]
  rw [takeWhile_append_stop Char.isDigit '.' f1 (by decide) ds hds]
  rw [List.drop_left]
  rw [List.head?_cons, if_pos rfl, List.tail_cons]
  rw [takeWhile_eq_self_of_all Char.isDigit f1 hf]
  rw [hne, Bool.and_false]
  simp only [Bool.false_eq_true, if_false, one_mul]

theorem parseFloatQ_digits_value (ds : List Char) (hds : ∀ c ∈ ds, c.isDigit = true) :
    (match parseFloatQ ds with | none => (0 : ℚ) | some a => a) = (natOfDigits ds : ℚ) := by
  cases hempty : ds.isEmpty
  · have hnws : ∀ c ∈ ds, isWsChar c = false := fun c hc => digit_not_ws (hds c hc)
    have hminus : ¬(ds.head? = some '-') := by
      cases ds with
      | nil => simp at hempty
      | cons c t =>
        intro heq
        rw [List.head?_cons] at heq
        have hc := Option.some.inj heq
        subst hc
        exact absurd (hds _ (List.mem_cons_self _ _)) (by decide)
    have hplus : ¬(ds.head? = some '+') := by
      cases ds with
      | nil => simp at hempty
      | cons c t =>
        intro heq
        rw [List.head?_cons] at heq
        have hc := Option.some.inj heq
        subst hc
        exact absurd (hds _ (List.mem_cons_self _ _)) (by decide)
    have hor : ¬(ds.head? = some '-' ∨ ds.head? = some '+') := by
      rintro (h | h)
      · exact hminus h
      · exact hplus h
    simp only [parseFloatQ]
    rw [dropWhile_eq_self_of_all _ _ hnws]
    rw [if_neg hminus, if_neg hor]
    rw [takeWhile_eq_self_of_all Char.isDigit ds hds]
    rw [List.drop_length]
    simp only [List.head?_nil, reduceCtorEq, if_false, List.takeWhile_nil, hempty,
      List.isEmpty_nil, Bool.and_true, Bool.false_eq_true, if_false]
    simp [natOfDigits]
  · have : ds = [] := List.isEmpty_iff.mp hempty
    subst this
    rfl

/-- Claim C4: locale parsing treats a trailing comma followed by exactly two
digits as the decimal separator with all dots removed as thousands
separators, and otherwise removes all dots and yields the integer value of
the remaining digits; the three example strings parse to 1500.5, 1500 and
2000. -/
theorem parseArgentineAmount_locale :
    (∀ (ds : List Char) (d1 d2 : Char),
        (∀ c ∈ ds, c ∈ digitChars ∨ c = '.') → d1 ∈ digitChars → d2 ∈ digitChars →
        parseArgentineAmount (String.mk (ds ++ [',', d1, d2]))
            = (natOfDigits (ds.filter (fun c => c != '.')) : ℚ)
              + (natOfDigits [d1, d2] : ℚ) / 100
          ∧ parseArgentineAmount (String.mk ds)
            = (natOfDigits (ds.filter (fun c => c != '.')) : ℚ))
    ∧ parseArgentineAmount "1.500,50" = 1500.5
    ∧ parseArgentineAmount "1.500" = 1500
    ∧ parseArgentineAmount "2.000,00" = 2000 := by
  refine ⟨?_, by with_unfolding_all rfl, by with_unfolding_all rfl, by with_unfolding_all rfl⟩
  intro ds d1 d2 hds h1 h2
  have hd1 := digitChars_isDigit h1
  have hd2 := digitChars_isDigit h2
  have hnws : ∀ c ∈ ds, isWsChar c = false := by
    intro c hc
    rcases hds c hc with h | rfl
    · exact digitChars_not_ws h
    · decide
  have hnocomma : ∀ c ∈ ds, (c == ',') = false := by
    intro c hc
    rcases hds c hc with h | rfl
    · exact digitChars_ne_comma h
    · decide
  have hfilter_digit : ∀ c ∈ ds.filter (fun c => c != '.'), c.isDigit = true := by
    intro c hc
    have hm := List.mem_of_mem_filter hc
    have hp := List.of_mem_filter hc
    rcases hds c hm with h | rfl
    · exact digitChars_isDigit h
    · simp at hp
  have hf12 : ∀ c ∈ [d1, d2], c.isDigit = true := by
    intro c hc
    rcases List.mem_cons.mp hc with rfl | hc2
    · exact hd1
    · rcases List.mem_cons.mp hc2 with rfl | hc3
      · exact hd2
      · simp at hc3
  constructor
  · have htrim : (jsTrim (String.mk (ds ++ [',', d1, d2]))).toList = ds ++ [',', d1, d2] := by
      show trimList (ds ++ [',', d1, d2]) = ds ++ [',', d1, d2]
      apply trimList_eq_self
      intro c hc
      rcases List.mem_append.mp hc with h | h
      · exact hnws c h
      · rcases List.mem_cons.mp h with rfl | h
        · decide
        · rcases List.mem_cons.mp h with rfl | h
          · exact digitChars_not_ws h1
          · rcases List.mem_cons.mp h with rfl | h
            · exact digitChars_not_ws h2
            · simp at h
    simp only [parseArgentineAmount]
    rw [htrim]
    rw [endsCommaDD_append ds hd1 hd2]
    simp only [if_true]
    rw [List.filter_append]
    rw [show [',', d1, d2].filter (fun c => c != '.') = [',', d1, d2] by
      rw [List.filter_cons, if_pos (by decide), List.filter_cons, if_pos (digitChars_ne_dot h1),
        List.filter_cons, if_pos (digitChars_ne_dot h2), List.filter_nil]]
    rw [replaceFirst_append_comma [d1, d2] (ds.filter (fun c => c != '.'))
      (fun c hc => hnocomma c (List.mem_of_mem_filter hc))]
    rw [parseFloatQ_int_frac (ds.filter (fun c => c != '.')) [d1, d2] hfilter_digit hf12 rfl]
    norm_num
  · have htrim2 : (jsTrim (String.mk ds)).toList = ds := by
      show trimList ds = ds
      exact trimList_eq_self hnws
    simp only [parseArgentineAmount]
    rw [htrim2]
    rw [endsCommaDD_no_comma hnocomma]
    simp only [Bool.false_eq_true, if_false]
    exact parseFloatQ_digits_value _ hfilter_digit

theorem parseArgentineAmount_locale_witness :
    parseArgentineAmount (String.mk (['1', '.', '5', '0', '0'] ++ [',', '5', '0']))
      = (natOfDigits (['1', '.', '5', '0', '0'].filter (fun c => c != '.')) : ℚ)
        + (natOfDigits ['5', '0'] : ℚ) / 100 :=
  (parseArgentineAmount_locale.1 ['1', '.', '5', '0', '0'] '5' '0' (by decide) (by decide)
    (by decide)).1
